import Mathlib

/-!
# Verification of the chat broadcast server (`src/examples/chat.rs`)

A shallow embedding of the chat server's data model and operations, with
theorems settling the specification's claims about it.

Modelling choices, justified against the source:

* A peer is keyed by its remote `SocketAddr`; we model addresses as `Nat`.
* The registry `State { peers: DashMap<SocketAddr, mpsc::Sender<Arc<Message>>> }`
  is modelled as an association list from address to the state of that peer's
  bounded mpsc channel: the queue of messages currently buffered plus a flag
  recording whether the channel is closed (receiver dropped).  DashMap keys are
  unique; theorems that need uniqueness take a `Nodup` hypothesis on the keys.
* `tokio::sync::mpsc::Sender::send(m).await` on a bounded channel returns
  `Err` exactly when the channel is closed; when the channel is full but open
  the call suspends (awaits) until capacity frees, and then succeeds.
  `Mailbox.sendPoll` is this single-poll semantics: `closedErr` on a closed
  channel, `delivered` when below capacity (`MAX_MESSAGES = 128`), and
  `pending` (the task suspends) when full but open.
* The broadcast loop calls `self.peers.remove(peer.key())` after a failed
  send while `peer`, the `RefMulti` yielded by `self.peers.iter()`, still
  holds that shard's read guard; `DashMap::remove` needs the shard's write
  lock and is documented to deadlock when called while holding any reference
  into the map.  `State.broadcastPoll` is the faithful run-until-stuck
  semantics including this deadlock; `State.broadcast` is the live-path
  semantics exact on registries whose non-sender entries are all open (its
  closed branch transcribes the source's intended warn-remove-continue).
* `Arc<Message>` sharing is ownership-level and has no observable effect on
  which messages reach which mailbox; we enqueue the `Message` value itself.
-/

/-- Connection identity: the remote socket address (registry key). -/
abbrev SocketAddr := Nat

/-- `const MAX_MESSAGES: usize = 128;` — the bound of each peer's mailbox. -/
def MAX_MESSAGES : Nat := 128

/-- The `Message` enum of `chat.rs`: `UserJoined(String)`, `UserLeft(String)`,
`Chat { sender, content }`. -/
inductive Message where
  | UserJoined (content : String)
  | UserLeft (content : String)
  | Chat (sender : String) (content : String)
deriving DecidableEq

/-- `Message::user_joined`: wraps `format!("{} has joined the chat", username)`
in the `UserJoined` variant. -/
def Message.user_joined (username : String) : Message :=
  .UserJoined (username ++ " has joined the chat")

/-- `Message::user_left`: wraps `format!("{} has left the chat", username)`
in the `UserLeft` variant. -/
def Message.user_left (username : String) : Message :=
  .UserLeft (username ++ " has left the chat")

/-- `Message::chat`: builds `Chat { sender, content }`. -/
def Message.chat (sender content : String) : Message :=
  .Chat sender content

/-- `impl fmt::Display for Message`: `UserJoined(c)` renders as `[c]`,
`UserLeft(c)` as `[c :(]`, `Chat { s, c }` as `s: c`. -/
def Message.fmt : Message → String
  | .UserJoined content => "[" ++ content ++ "]"
  | .UserLeft content => "[" ++ content ++ " :(]"
  | .Chat sender content => sender ++ ": " ++ content

/-- State of one peer's bounded mpsc channel: the buffered messages and
whether the channel is closed (its receiver — the peer's write loop — has
been dropped). -/
structure Mailbox where
  msgs : List Message
  closed : Bool
deriving DecidableEq

/-- The registry: `DashMap<SocketAddr, Sender>` as an association list from
address to that peer's channel state. -/
abbrev Registry := List (SocketAddr × Mailbox)

/-- Look up the mailbox registered for address `a` (first entry wins, as in a
map with unique keys). -/
def lookupMb (a : SocketAddr) : Registry → Option Mailbox
  | [] => none
  | (b, mb) :: rest => if b = a then some mb else lookupMb a rest

/-- `self.peers.remove(&addr)`: drop the entry keyed by `a`, if any. -/
def unregister (a : SocketAddr) : Registry → Registry
  | [] => []
  | (b, mb) :: rest =>
      if b = a then unregister a rest else (b, mb) :: unregister a rest

/-- Registry effect of `State::add`: `mpsc::channel(MAX_MESSAGES)` creates a
fresh, empty, open channel, and `self.peers.insert(addr, tx)` binds `addr`
to it (replacing any previous binding, as `DashMap::insert` does). -/
def State.add (r : Registry) (addr : SocketAddr) : Registry :=
  (addr, ⟨[], false⟩) :: unregister addr r

/-- Live-path semantics of `State::broadcast`: iterate the peers, skip the
entry whose key equals the sender's address, and for every other entry await
`send`; the awaited send completes and the message is enqueued whenever the
target channel is open.  The closed-channel branch here transcribes the
*intended* error path written in the source ("if send failed, peer might be
gone, remove peer from state": warn, `self.peers.remove(peer.key())`,
continue the loop); in the running program that `remove` call actually
deadlocks on the shard lock held by the iteration's `RefMulti` — see
`State.broadcastPoll` for the faithful run-until-stuck semantics.  Theorems
stated over registries whose non-sender entries are open never exercise the
closed branch, and on that domain this function is exact. -/
def State.broadcast (r : Registry) (addr : SocketAddr) (m : Message) : Registry :=
  match r with
  | [] => []
  | (a, mb) :: rest =>
      if a = addr then (a, mb) :: State.broadcast rest addr m
      else if mb.closed then State.broadcast rest addr m
      else (a, ⟨mb.msgs ++ [m], false⟩) :: State.broadcast rest addr m

/-- Result of one poll of `Sender::send(m)` on a bounded channel. -/
inductive SendPoll where
  | delivered (mb : Mailbox)
  | closedErr
  | pending
deriving DecidableEq

/-- Single-poll semantics of `Sender::send(m).await` on a channel of capacity
`MAX_MESSAGES`: `Err` iff the channel is closed; enqueues when below capacity;
suspends (`pending`) when the channel is full but open. -/
def Mailbox.sendPoll (mb : Mailbox) (m : Message) : SendPoll :=
  if mb.closed then .closedErr
  else if mb.msgs.length < MAX_MESSAGES then .delivered ⟨mb.msgs ++ [m], false⟩
  else .pending

/-- How a run of the broadcast loop stops making progress. -/
inductive BroadcastStop where
  | completed
  | awaitingCapacity (a : SocketAddr)
  | deadlockedInRemove (a : SocketAddr)
deriving DecidableEq

/-- `State::broadcast` run until it completes or can no longer make progress,
processing entries in order.  A full open target suspends the broadcaster
(`send(...).await` parks the task awaiting capacity, and may later resume):
`awaitingCapacity`.  A closed target makes the send return `Err`; the warning
is logged and then `self.peers.remove(peer.key())` is called while `peer` —
the `RefMulti` yielded by `self.peers.iter()` — still holds the read guard of
that key's shard.  `DashMap::remove` must take the write lock on that same
shard and is documented to deadlock when called while holding any reference
into the map, so the broadcaster blocks forever inside `remove`: the entry is
not removed and the loop never reaches the remaining peers
(`deadlockedInRemove`).  Returns the registry as left by the run (prior
deliveries applied, the blocking entry and everything after it untouched)
and the stop marker. -/
def State.broadcastPoll (r : Registry) (addr : SocketAddr) (m : Message) :
    Registry × BroadcastStop :=
  match r with
  | [] => ([], .completed)
  | (a, mb) :: rest =>
      if a = addr then
        let p := State.broadcastPoll rest addr m
        ((a, mb) :: p.1, p.2)
      else
        match mb.sendPoll m with
        | .delivered mb2 =>
            let p := State.broadcastPoll rest addr m
            ((a, mb2) :: p.1, p.2)
        | .closedErr => ((a, mb) :: rest, .deadlockedInRemove a)
        | .pending => ((a, mb) :: rest, .awaitingCapacity a)

/-- Outcome of one iteration of `main`'s accept loop. -/
inductive AcceptIterResult where
  | spawnedAndContinue (conn : Nat)
  | terminateErr (e : String)
deriving DecidableEq

/-- One iteration of the accept loop in `main`:
`let (stream, addr) = listener.accept().await?;` — on `Ok`, the connection is
handed to a spawned `handle_client` task and the loop continues; on `Err`,
the `?` operator propagates the error out of the loop, returning it from
`main` and terminating the server. -/
def mainAcceptIter : Except String Nat → AcceptIterResult
  | .ok c => .spawnedAndContinue c
  | .error e => .terminateErr e

/-- Whether the accept loop keeps running after this iteration. -/
def AcceptIterResult.isContinue : AcceptIterResult → Bool
  | .spawnedAndContinue _ => true
  | .terminateErr _ => false

/-- The first `stream.next().await` in `handle_client`:
`Some(Ok(line))`, `Some(Err(e))`, or `None` (EOF). -/
inductive LineEvent where
  | line (s : String)
  | ioErr (e : String)
  | eof

/-- The handshake-and-join phase of `handle_client`, up to and including the
`Joined` broadcast.  `promptRes` is the result of
`stream.send("Enter your username:").await?` (an `Err` returns from the
function before anything is registered); `first` is the first line event:
`Some(Err(e))` returns `Err(e)` and `None` returns `Ok(())`, both before
`state.add`; `Some(Ok(username))` registers the peer via `state.add` and then
broadcasts `Message::user_joined(username)` from its own address.  Returns
the resulting registry and `some username` when the handler proceeds to its
read loop. -/
def handleClientStart (promptRes : Except String Unit) (first : LineEvent)
    (addr : SocketAddr) (r : Registry) : Registry × Option String :=
  match promptRes with
  | .error _ => (r, none)
  | .ok _ =>
      match first with
      | .ioErr _ => (r, none)
      | .eof => (r, none)
      | .line u =>
          (State.broadcast (State.add r addr) addr (Message.user_joined u), some u)

/-- The read loop of `handle_client` over the sequence of poll results of
`peer.stream.next()`: an `Ok(line)` is broadcast as
`Message::chat(username, line)` and the loop continues; an `Err` is logged
and breaks the loop; the list ending models EOF (`None`). -/
def readLoop (addr : SocketAddr) (username : String) :
    List (Except String String) → Registry → Registry
  | [], r => r
  | .error _ :: _, r => r
  | .ok line :: rest, r =>
      readLoop addr username rest (State.broadcast r addr (Message.chat username line))

/-- The lines the read loop actually broadcasts: the prefix of `Ok` lines up
to the first `Err` (which breaks the loop). -/
def okLines : List (Except String String) → List String
  | [] => []
  | .error _ :: _ => []
  | .ok s :: rest => s :: okLines rest

/-- The termination phase of `handle_client`: after the read loop exits,
`state.peers.remove(&addr)` and then
`state.broadcast(addr, Message::user_left(username))`. -/
def handleClientFinish (r : Registry) (addr : SocketAddr) (username : String) :
    Registry :=
  State.broadcast (unregister addr r) addr (Message.user_left username)

/-- A concrete mailbox at capacity (`MAX_MESSAGES` buffered messages) whose
channel is still open: its receiver is alive but slow. -/
def fullOpenMailbox : Mailbox :=
  ⟨List.replicate MAX_MESSAGES (Message.chat "spam" "x"), false⟩

/-! ## Helper lemmas -/

/-- An address outside the key list has no registry entry. -/
theorem lookupMb_eq_none_of_not_mem (b : SocketAddr) (r : Registry)
    (h : b ∉ r.map Prod.fst) : lookupMb b r = none := by
  induction r with
  | nil => rfl
  | cons p rest ih =>
    obtain ⟨a, mb⟩ := p
    simp only [List.map_cons, List.mem_cons] at h
    push_neg at h
    have hab : ¬ a = b := fun hh => h.1 hh.symm
    simp [lookupMb, hab, ih h.2]

/-- Broadcasting never changes, adds or removes the sender's own entry. -/
theorem lookupMb_broadcast_sender (r : Registry) (s : SocketAddr) (m : Message) :
    lookupMb s (State.broadcast r s m) = lookupMb s r := by
  induction r with
  | nil => rfl
  | cons p rest ih =>
    obtain ⟨a, mb⟩ := p
    by_cases hab : a = s
    · subst hab; simp [State.broadcast, lookupMb, ih]
    · by_cases hc : mb.closed <;>
        simp [State.broadcast, lookupMb, hab, hc, ih]

/-- A non-sender peer whose channel is open receives the broadcast message:
its mailbox afterwards is its old queue with `m` appended, still open. -/
theorem lookupMb_broadcast_open (r : Registry) (s b : SocketAddr) (m : Message)
    (mb : Mailbox) (hbs : b ≠ s) (hb : lookupMb b r = some mb)
    (hc : mb.closed = false) :
    lookupMb b (State.broadcast r s m) = some ⟨mb.msgs ++ [m], false⟩ := by
  induction r with
  | nil => simp [lookupMb] at hb
  | cons p rest ih =>
    obtain ⟨a, mb'⟩ := p
    by_cases hab : a = b
    · subst hab
      simp only [lookupMb, if_pos rfl] at hb
      have hmb : mb' = mb := Option.some_injective _ hb
      subst hmb
      have has : ¬ a = s := hbs
      simp [State.broadcast, has, hc, lookupMb]
    · simp only [lookupMb, if_neg hab] at hb
      by_cases has : a = s
      · subst has
        simp [State.broadcast, lookupMb, hab, ih hb]
      · by_cases hcl : mb'.closed <;>
          simp [State.broadcast, has, hcl, lookupMb, hab, ih hb]

/-- An address with no registry entry still has none after any broadcast:
broadcast never inserts entries. -/
theorem lookupMb_broadcast_none (r : Registry) (s b : SocketAddr) (m : Message)
    (hb : lookupMb b r = none) :
    lookupMb b (State.broadcast r s m) = none := by
  induction r with
  | nil => rfl
  | cons p rest ih =>
    obtain ⟨a, mb'⟩ := p
    by_cases hab : a = b
    · subst hab; simp [lookupMb] at hb
    · simp only [lookupMb, if_neg hab] at hb
      by_cases has : a = s
      · subst has
        simp [State.broadcast, lookupMb, hab, ih hb]
      · by_cases hcl : mb'.closed <;>
          simp [State.broadcast, has, hcl, lookupMb, hab, ih hb]

/-- Removing address `a` does not affect lookups of other addresses. -/
theorem lookupMb_unregister_ne (a b : SocketAddr) (r : Registry) (hba : b ≠ a) :
    lookupMb b (unregister a r) = lookupMb b r := by
  induction r with
  | nil => rfl
  | cons p rest ih =>
    obtain ⟨c, mb⟩ := p
    by_cases hca : c = a
    · subst hca
      have hcb : ¬ c = b := fun h => hba (h ▸ rfl)
      simp [unregister, lookupMb, hcb, ih]
    · by_cases hcb : c = b <;> simp [unregister, hca, lookupMb, hcb, hba, ih]

/-- After `unregister a`, address `a` has no entry. -/
theorem lookupMb_unregister_self (a : SocketAddr) (r : Registry) :
    lookupMb a (unregister a r) = none := by
  induction r with
  | nil => rfl
  | cons p rest ih =>
    obtain ⟨c, mb⟩ := p
    by_cases hca : c = a
    · subst hca; simp [unregister, ih]
    · simp [unregister, hca, lookupMb, ih]

/-- Removing an absent key is a no-op. -/
theorem unregister_absent (a : SocketAddr) (r : Registry)
    (h : lookupMb a r = none) : unregister a r = r := by
  induction r with
  | nil => rfl
  | cons p rest ih =>
    obtain ⟨c, mb⟩ := p
    by_cases hca : c = a
    · subst hca; simp [lookupMb] at h
    · simp only [lookupMb, if_neg hca] at h
      simp [unregister, hca, ih h]

/-! ## Claim theorems -/

/-- **C1.** `broadcast(senderId, m)` enqueues the message into the mailbox of
every registry entry whose id is not the sender's (for open channels), and
never into the sender's own mailbox (the sender's entry is untouched); in
particular, right after a peer joins via `handle_client`, its own mailbox is
still empty — it never receives its own `Joined` message. -/
theorem broadcast_excludes_sender_reaches_others (r : Registry)
    (s : SocketAddr) (m : Message) (u : String) :
    lookupMb s (State.broadcast r s m) = lookupMb s r
    ∧ (∀ b mb, b ≠ s → lookupMb b r = some mb → mb.closed = false →
        lookupMb b (State.broadcast r s m) = some ⟨mb.msgs ++ [m], false⟩)
    ∧ lookupMb s (handleClientStart (Except.ok ()) (LineEvent.line u) s r).1
        = some ⟨[], false⟩ := by
  refine ⟨lookupMb_broadcast_sender r s m,
    fun b mb hbs hb hc => lookupMb_broadcast_open r s b m mb hbs hb hc, ?_⟩
  show lookupMb s (State.broadcast (State.add r s) s (Message.user_joined u))
      = some ⟨[], false⟩
  rw [lookupMb_broadcast_sender]
  simp [State.add, lookupMb]

/-- Witness for C1 at a concrete two-peer registry. -/
theorem broadcast_excludes_sender_reaches_others_witness :
    lookupMb 2 (State.broadcast
        [(1, Mailbox.mk [] false), (2, Mailbox.mk [] false)] 1
        (Message.chat "alice" "hello"))
      = some ⟨[Message.chat "alice" "hello"], false⟩ := by
  have h := broadcast_excludes_sender_reaches_others
    [(1, Mailbox.mk [] false), (2, Mailbox.mk [] false)] 1
    (Message.chat "alice" "hello") "bob"
  simpa using h.2.1 2 ⟨[], false⟩ (by decide) rfl rfl

/-- **C3 (counterexample).** The claim that an accept failure is logged and
the loop continues is false on the code: `listener.accept().await?` uses `?`,
so at the concrete error below the loop iteration does not continue. -/
theorem acceptLoop_error_not_continue :
    (mainAcceptIter (Except.error "connection reset")).isContinue = false := rfl

/-- **C3 (amended).** A failure of `accept` propagates out of the loop via
the `?` operator and terminates `main` (the whole server) with that error;
only a successful accept spawns a handler and continues the loop. -/
theorem acceptLoop_error_terminates (e : String) (c : Nat) :
    mainAcceptIter (Except.error e) = AcceptIterResult.terminateErr e
    ∧ mainAcceptIter (Except.ok c) = AcceptIterResult.spawnedAndContinue c :=
  ⟨rfl, rfl⟩

/-- **C5.** If the prompt write fails, or the stream errors or reaches EOF
before a username line, `handle_client` returns before `state.add` and before
any broadcast: the registry (hence every other peer's mailbox) is returned
unchanged and no username is accepted. -/
theorem handshake_failure_no_side_effects (e : String) (addr : SocketAddr)
    (r : Registry) (f : LineEvent) :
    handleClientStart (Except.error e) f addr r = (r, none)
    ∧ handleClientStart (Except.ok ()) (LineEvent.ioErr e) addr r = (r, none)
    ∧ handleClientStart (Except.ok ()) LineEvent.eof addr r = (r, none) :=
  ⟨rfl, rfl, rfl⟩

/-- **C6.** `unregister` is idempotent: removing an absent id is a no-op,
removing twice equals removing once, and afterwards the registry has no entry
for that id. -/
theorem unregister_idempotent (a : SocketAddr) (r : Registry) :
    (lookupMb a r = none → unregister a r = r)
    ∧ unregister a (unregister a r) = unregister a r
    ∧ lookupMb a (unregister a r) = none :=
  ⟨unregister_absent a r,
    unregister_absent a (unregister a r) (lookupMb_unregister_self a r),
    lookupMb_unregister_self a r⟩

/-- Witness for C6: removing an absent id 7 is a no-op, and a double removal
equals a single one. -/
theorem unregister_idempotent_witness :
    unregister 7 [(3, Mailbox.mk [] false)] = [(3, Mailbox.mk [] false)]
    ∧ unregister 7 (unregister 7 [(3, Mailbox.mk [] false)])
        = unregister 7 [(3, Mailbox.mk [] false)] := by
  have h := unregister_idempotent 7 [(3, Mailbox.mk [] false)]
  exact ⟨h.1 rfl, h.2.1⟩

/-- **C8.** Wire rendering of the three `Message` variants:
`Message::user_joined(u)` displays as `[u has joined the chat]`,
`Message::user_left(u)` as `[u has left the chat :(]`, and
`Message::chat(s, c)` as `s: c`. -/
theorem message_display_forms (u s c : String) :
    (Message.user_joined u).fmt = "[" ++ u ++ " has joined the chat]"
    ∧ (Message.user_left u).fmt = "[" ++ u ++ " has left the chat :(]"
    ∧ (Message.chat s c).fmt = s ++ ": " ++ c := by
  refine ⟨?_, ?_, rfl⟩
  · show "[" ++ (u ++ " has joined the chat") ++ "]"
        = "[" ++ u ++ " has joined the chat]"
    rw [← String.append_assoc, String.append_assoc ("[" ++ u)]
    rfl
  · show "[" ++ (u ++ " has left the chat") ++ " :(]"
        = "[" ++ u ++ " has left the chat :(]"
    rw [← String.append_assoc, String.append_assoc ("[" ++ u)]
    rfl

/-- **C10.** `broadcast` has no precondition that the sender is registered:
when the sender has no registry entry (as for the `Left` message sent after
the departing handler removed its own entry), the message is still delivered
to every currently-registered peer with an open channel. -/
theorem broadcast_without_sender_entry (r : Registry) (s : SocketAddr)
    (m : Message) (hs : lookupMb s r = none) :
    ∀ b mb, lookupMb b r = some mb → mb.closed = false →
      lookupMb b (State.broadcast r s m) = some ⟨mb.msgs ++ [m], false⟩ := by
  intro b mb hb hc
  have hbs : b ≠ s := by
    intro h
    subst h
    rw [hs] at hb
    cases hb
  exact lookupMb_broadcast_open r s b m mb hbs hb hc

/-- Witness for C10: an unregistered sender 9 still delivers to peer 1. -/
theorem broadcast_without_sender_entry_witness :
    lookupMb 1 (State.broadcast [(1, Mailbox.mk [] false)] 9
        (Message.user_left "C"))
      = some ⟨[Message.user_left "C"], false⟩ := by
  have h := broadcast_without_sender_entry [(1, Mailbox.mk [] false)] 9
    (Message.user_left "C") rfl 1 ⟨[], false⟩ rfl rfl
  simpa using h

set_option maxRecDepth 8192 in
/-- **C2 (counterexample).** The claim that a full mailbox is treated as the
receiver being gone (warn + unregister, never block) is false on the code:
`peer.value().send(...).await` only errors on a closed channel.  On the
concrete registry below, whose sole target mailbox is full but open, the
broadcast keeps the entry registered, enqueues nothing, and parks the
broadcaster awaiting capacity in that mailbox — it blocks instead of
unregistering. -/
theorem broadcast_full_mailbox_not_unregistered :
    (State.broadcastPoll [(1, fullOpenMailbox)] 2 (Message.chat "a" "hi")).1
        = [(1, fullOpenMailbox)]
    ∧ (State.broadcastPoll [(1, fullOpenMailbox)] 2 (Message.chat "a" "hi")).2
        = BroadcastStop.awaitingCapacity 1
    ∧ lookupMb 1
        (State.broadcastPoll [(1, fullOpenMailbox)] 2 (Message.chat "a" "hi")).1
        ≠ none := by
  refine ⟨rfl, rfl, ?_⟩
  intro h
  simp [lookupMb] at h

/-- **C2 (amended).** During broadcast, a full mailbox of a target peer
(capacity 128) is not treated as that receiver being gone and the broadcaster
does not self-heal: the send parks the broadcaster awaiting capacity (it can
block indefinitely), the target stays registered and nothing is removed.  On
a *closed* mailbox the send does fail and the warning is logged, but the
following `self.peers.remove(peer.key())` deadlocks on the shard lock held by
the loop's iterator reference, so that target is not unregistered either and
the loop never continues past it. -/
theorem broadcast_full_blocks_closed_deadlocks (s a : SocketAddr)
    (m : Message) (mb : Mailbox) (rest : Registry) :
    (mb.closed = false → MAX_MESSAGES ≤ mb.msgs.length →
      Mailbox.sendPoll mb m = SendPoll.pending
      ∧ (a ≠ s → State.broadcastPoll ((a, mb) :: rest) s m
          = ((a, mb) :: rest, BroadcastStop.awaitingCapacity a)))
    ∧ (mb.closed = true →
      Mailbox.sendPoll mb m = SendPoll.closedErr
      ∧ (a ≠ s → State.broadcastPoll ((a, mb) :: rest) s m
          = ((a, mb) :: rest, BroadcastStop.deadlockedInRemove a))) := by
  constructor
  · intro hc hlen
    have hp : Mailbox.sendPoll mb m = SendPoll.pending := by
      simp [Mailbox.sendPoll, hc, Nat.not_lt.mpr hlen]
    refine ⟨hp, fun has => ?_⟩
    simp [State.broadcastPoll, has, hp]
  · intro hc
    have hp : Mailbox.sendPoll mb m = SendPoll.closedErr := by
      simp [Mailbox.sendPoll, hc]
    refine ⟨hp, fun has => ?_⟩
    simp [State.broadcastPoll, has, hp]

set_option maxRecDepth 8192 in
/-- Witness for the amended C2: a full open target parks the broadcaster with
the entry kept; a closed target leaves the broadcaster deadlocked inside the
remove call with the entry still present. -/
theorem broadcast_full_blocks_closed_deadlocks_witness :
    State.broadcastPoll [(3, fullOpenMailbox)] 2 (Message.chat "a" "hi")
        = ([(3, fullOpenMailbox)], BroadcastStop.awaitingCapacity 3)
    ∧ State.broadcastPoll [(1, Mailbox.mk [] true)] 2 (Message.chat "a" "hi")
        = ([(1, Mailbox.mk [] true)], BroadcastStop.deadlockedInRemove 1) := by
  constructor
  · have h := (broadcast_full_blocks_closed_deadlocks 2 3
      (Message.chat "a" "hi") fullOpenMailbox []).1 rfl (by decide)
    exact h.2 (by decide)
  · have h := (broadcast_full_blocks_closed_deadlocks 2 1
      (Message.chat "a" "hi") (Mailbox.mk [] true) []).2 rfl
    exact h.2 (by decide)

/-- **C4.** When a read loop ends, the handler removes its own entry and then
broadcasts one `Left` message: the departed address has no entry afterwards;
every still-registered open peer's mailbox gains exactly the one `Left`
message; and once its entry is gone, a peer's address gains no entry (hence
receives nothing) from any further broadcast. -/
theorem handleClientFinish_left_broadcast (r : Registry) (addr : SocketAddr)
    (u : String) :
    lookupMb addr (handleClientFinish r addr u) = none
    ∧ (∀ b mb, b ≠ addr → lookupMb b r = some mb → mb.closed = false →
        lookupMb b (handleClientFinish r addr u)
          = some ⟨mb.msgs ++ [Message.user_left u], false⟩)
    ∧ (∀ (r2 : Registry) (s : SocketAddr) (m : Message),
        lookupMb addr r2 = none →
        lookupMb addr (State.broadcast r2 s m) = none) := by
  refine ⟨?_, ?_, ?_⟩
  · show lookupMb addr
      (State.broadcast (unregister addr r) addr (Message.user_left u)) = none
    exact lookupMb_broadcast_none (unregister addr r) addr addr
      (Message.user_left u) (lookupMb_unregister_self addr r)
  · intro b mb hba hb hc
    have h1 : lookupMb b (unregister addr r) = some mb :=
      (lookupMb_unregister_ne addr b r hba).trans hb
    exact lookupMb_broadcast_open (unregister addr r) addr b
      (Message.user_left u) mb hba h1 hc
  · intro r2 s m h
    exact lookupMb_broadcast_none r2 s addr m h

/-- Witness for C4: peer 2 leaves a two-peer registry; peer 1 receives the
`Left` message and peer 2's entry is gone. -/
theorem handleClientFinish_left_broadcast_witness :
    lookupMb 2 (handleClientFinish
        [(1, Mailbox.mk [] false), (2, Mailbox.mk [] false)] 2 "C") = none
    ∧ lookupMb 1 (handleClientFinish
        [(1, Mailbox.mk [] false), (2, Mailbox.mk [] false)] 2 "C")
      = some ⟨[Message.user_left "C"], false⟩ := by
  have h := handleClientFinish_left_broadcast
    [(1, Mailbox.mk [] false), (2, Mailbox.mk [] false)] 2 "C"
  refine ⟨h.1, ?_⟩
  simpa using h.2.1 1 ⟨[], false⟩ (by decide) rfl rfl

/-- **C7 (code bug).** The claim — and the source's own comment "if send
failed, peer might be gone, remove peer from state" — say a failed delivery
removes only that target and the broadcast still attempts delivery to every
remaining peer.  At the concrete failing input below (peer 1's channel
closed, peer 2 open and empty, sender 3) the code instead wedges: the failed
send is followed by `self.peers.remove(peer.key())`, which deadlocks on the
shard lock held by the iteration's `RefMulti`, so peer 1 is never removed,
the loop never continues, and peer 2 — still registered with an open, empty
mailbox — never receives the message. -/
theorem broadcast_dead_peer_wedges_loop :
    State.broadcastPoll [(1, Mailbox.mk [] true), (2, Mailbox.mk [] false)] 3
        (Message.chat "a" "x")
      = ([(1, Mailbox.mk [] true), (2, Mailbox.mk [] false)],
          BroadcastStop.deadlockedInRemove 1)
    ∧ lookupMb 1 (State.broadcastPoll
        [(1, Mailbox.mk [] true), (2, Mailbox.mk [] false)] 3
        (Message.chat "a" "x")).1 = some (Mailbox.mk [] true)
    ∧ lookupMb 2 (State.broadcastPoll
        [(1, Mailbox.mk [] true), (2, Mailbox.mk [] false)] 3
        (Message.chat "a" "x")).1 = some (Mailbox.mk [] false) :=
  ⟨rfl, rfl, rfl⟩

/-- **C9.** Per-sender FIFO: the read loop broadcasts its `Ok` lines one by
one, in order, so a fixed other peer with an open channel ends with exactly
the `Chat` messages of those lines appended to its mailbox in the order the
read loop produced them. -/
theorem readLoop_per_sender_fifo (addr : SocketAddr) (u : String)
    (items : List (Except String String)) (r : Registry) (b : SocketAddr)
    (mb : Mailbox) (hba : b ≠ addr) (hb : lookupMb b r = some mb)
    (hc : mb.closed = false) :
    lookupMb b (readLoop addr u items r)
      = some ⟨mb.msgs ++ (okLines items).map (Message.chat u), false⟩ := by
  induction items generalizing r mb with
  | nil =>
    obtain ⟨msgs, closed⟩ := mb
    subst hc
    simpa [readLoop, okLines] using hb
  | cons head rest ih =>
    cases head with
    | error e =>
      obtain ⟨msgs, closed⟩ := mb
      subst hc
      simpa [readLoop, okLines] using hb
    | ok line =>
      have h1 := lookupMb_broadcast_open r addr b (Message.chat u line) mb
        hba hb hc
      have h2 := ih (State.broadcast r addr (Message.chat u line))
        ⟨mb.msgs ++ [Message.chat u line], false⟩ h1 rfl
      simpa [readLoop, okLines] using h2

/-- Witness for C9: two lines from peer 1 reach peer 2 in production order. -/
theorem readLoop_per_sender_fifo_witness :
    lookupMb 2 (readLoop 1 "alice" [Except.ok "m1", Except.ok "m2"]
        [(1, Mailbox.mk [] false), (2, Mailbox.mk [] false)])
      = some ⟨[Message.chat "alice" "m1", Message.chat "alice" "m2"], false⟩ := by
  have h := readLoop_per_sender_fifo 1 "alice"
    [Except.ok "m1", Except.ok "m2"]
    [(1, Mailbox.mk [] false), (2, Mailbox.mk [] false)] 2 ⟨[], false⟩
    (by decide) rfl rfl
  simpa using h
